import Mathlib

/-!
Verification of the TransitReader pipeline against its specification.

The definitions below are a shallow embedding of the Python sources under
`src/transit_reader/`: the flow graph declared by the `@start`/`@listen`
decorators in `main.py`, the `TransitState` pydantic record in
`utils/models.py`, the markdown chunking and Qdrant ingestion code in
`utils/qdrant_setup.py`, the embedding helpers in `utils/embeddings_fn.py`,
the search tool in `tools/qdrant_search_tool.py`, the chart formatting in
`utils/chart_formatting.py`, and the subject-profile construction in
`utils/subject_selection.py`.
-/

namespace TransitReader

/-- The sixteen step methods of `TransitFlow` in `main.py`, in source order. -/
inductive Step where
  | setup_qdrant
  | generate_current_transits
  | get_natal_chart_data
  | get_transit_to_natal_chart_data
  | generate_transit_analysis
  | generate_natal_analysis
  | generate_transit_to_natal_analysis
  | review_transit_analysis
  | review_natal_analysis
  | review_transit_to_natal_analysis
  | generate_chart_appendices
  | generate_report_draft
  | interrogate_report_draft
  | generate_kerykeion_transit_chart
  | save_transit_analysis
  | send_transit_analysis
  deriving DecidableEq, Repr, Fintype

open Step

/-- All steps of the flow. -/
def allSteps : List Step :=
  [setup_qdrant, generate_current_transits, get_natal_chart_data,
   get_transit_to_natal_chart_data, generate_transit_analysis,
   generate_natal_analysis, generate_transit_to_natal_analysis,
   review_transit_analysis, review_natal_analysis,
   review_transit_to_natal_analysis, generate_chart_appendices,
   generate_report_draft, interrogate_report_draft,
   generate_kerykeion_transit_chart, save_transit_analysis,
   send_transit_analysis]

/-- The direct dependencies declared by the `@start()` / `@listen(...)` /
`and_(...)` decorators on each step of `TransitFlow` (`main.py`).
`@listen(and_(a, b, c))` waits for all of `a`, `b`, `c`. -/
def deps : Step → List Step
  | setup_qdrant => []
  | generate_current_transits => [setup_qdrant]
  | get_natal_chart_data => [setup_qdrant]
  | get_transit_to_natal_chart_data => [setup_qdrant]
  | generate_transit_analysis =>
      [generate_current_transits, get_natal_chart_data,
       get_transit_to_natal_chart_data]
  | generate_natal_analysis =>
      [generate_current_transits, get_natal_chart_data,
       get_transit_to_natal_chart_data]
  | generate_transit_to_natal_analysis =>
      [generate_current_transits, get_natal_chart_data,
       get_transit_to_natal_chart_data]
  | review_transit_analysis => [generate_transit_analysis]
  | review_natal_analysis => [generate_natal_analysis]
  | review_transit_to_natal_analysis => [generate_transit_to_natal_analysis]
  | generate_chart_appendices =>
      [review_transit_analysis, review_natal_analysis,
       review_transit_to_natal_analysis]
  | generate_report_draft => [generate_chart_appendices]
  | interrogate_report_draft => [generate_report_draft]
  | generate_kerykeion_transit_chart => [interrogate_report_draft]
  | save_transit_analysis => [generate_kerykeion_transit_chart]
  | send_transit_analysis => [save_transit_analysis]

/-- An execution of the flow, abstracted to the completion order of its
steps: a list that contains every step exactly once, in which every step
appears strictly after each of its declared dependencies (the framework
only fires a step once all steps it listens to have completed). -/
def validSchedule (l : List Step) : Bool :=
  allSteps.all (fun s => l.count s == 1) &&
  l.all (fun a => (deps a).all (fun b => decide (l.indexOf b < l.indexOf a)))

/-- `reachesAux n a b`: the dependency graph contains a path from `b` back
to `a` of length at most `n`, i.e. `a` is a (transitive) prerequisite of
`b`. -/
def reachesAux : Nat → Step → Step → Bool
  | 0, _, _ => false
  | n + 1, a, b =>
      decide (a ∈ deps b) || (deps b).any (fun d => reachesAux n a d)

/-- `a` is a transitive prerequisite of `b` in the declared flow graph
(16 steps, so fuel 16 suffices for any path). -/
def precedes (a b : Step) : Bool := reachesAux 16 a b

lemma mem_allSteps (s : Step) : s ∈ allSteps := by cases s <;> simp [allSteps]

lemma mem_of_validSchedule {l : List Step} (hv : validSchedule l = true)
    (s : Step) : s ∈ l := by
  unfold validSchedule at hv
  rw [Bool.and_eq_true] at hv
  rw [List.all_eq_true] at hv
  replace hv := hv.1 s (mem_allSteps s)
  have hc : l.count s = 1 := by simpa using hv
  by_contra hns
  rw [← List.count_eq_zero] at hns
  omega

lemma gate_of_validSchedule {l : List Step} (hv : validSchedule l = true)
    {a b : Step} (hb : b ∈ l) (hab : a ∈ deps b) :
    l.indexOf a < l.indexOf b := by
  unfold validSchedule at hv
  rw [Bool.and_eq_true] at hv
  have h2 := hv.2
  rw [List.all_eq_true] at h2
  have hb' := h2 b hb
  rw [List.all_eq_true] at hb'
  simpa using hb' a hab

lemma indexOf_lt_of_reachesAux {l : List Step} (hv : validSchedule l = true) :
    ∀ (n : Nat) (a b : Step), reachesAux n a b = true →
      l.indexOf a < l.indexOf b := by
  intro n
  induction n with
  | zero => intro a b h; simp [reachesAux] at h
  | succ n ih =>
    intro a b h
    unfold reachesAux at h
    rw [Bool.or_eq_true] at h
    rcases h with h | h
    · exact gate_of_validSchedule hv (mem_of_validSchedule hv b) (of_decide_eq_true h)
    · rw [List.any_eq_true] at h
      obtain ⟨d, hd, hr⟩ := h
      exact lt_trans (ih a d hr) (gate_of_validSchedule hv (mem_of_validSchedule hv b) hd)

/-- In every execution respecting the declared gates, a transitive
prerequisite completes strictly earlier. -/
lemma indexOf_lt_of_precedes {l : List Step} (hv : validSchedule l = true)
    {a b : Step} (h : precedes a b = true) : l.indexOf a < l.indexOf b :=
  indexOf_lt_of_reachesAux hv 16 a b h

/-- The three chart-generation steps of the flow. -/
def chartSteps : List Step :=
  [generate_current_transits, get_natal_chart_data, get_transit_to_natal_chart_data]

/-- The three analysis steps of the flow. -/
def analysisSteps : List Step :=
  [generate_transit_analysis, generate_natal_analysis, generate_transit_to_natal_analysis]

/-- The three review steps of the flow. -/
def reviewSteps : List Step :=
  [review_transit_analysis, review_natal_analysis, review_transit_to_natal_analysis]

/-- The linear tail of the flow, in the claimed order. -/
def tailChain (l : List Step) : Prop :=
  l.indexOf generate_chart_appendices < l.indexOf generate_report_draft ∧
  l.indexOf generate_report_draft < l.indexOf interrogate_report_draft ∧
  l.indexOf interrogate_report_draft < l.indexOf generate_kerykeion_transit_chart ∧
  l.indexOf generate_kerykeion_transit_chart < l.indexOf save_transit_analysis ∧
  l.indexOf save_transit_analysis < l.indexOf send_transit_analysis

/-- C1 as stated by the spec claim: charts after setup, analyses after all
charts, every review after all three analyses, then the linear tail. -/
def claimedDagShape : Prop :=
  ∀ l : List Step, validSchedule l = true →
    (∀ c ∈ chartSteps, l.indexOf setup_qdrant < l.indexOf c) ∧
    (∀ c ∈ chartSteps, ∀ a ∈ analysisSteps, l.indexOf c < l.indexOf a) ∧
    (∀ a ∈ analysisSteps, ∀ r ∈ reviewSteps, l.indexOf a < l.indexOf r) ∧
    tailChain l

/-- A concrete execution order respecting all declared gates, in which
`review_transit_analysis` completes before `generate_natal_analysis`. -/
def earlyReviewSchedule : List Step :=
  [setup_qdrant, generate_current_transits, get_natal_chart_data,
   get_transit_to_natal_chart_data, generate_transit_analysis,
   review_transit_analysis, generate_natal_analysis,
   generate_transit_to_natal_analysis, review_natal_analysis,
   review_transit_to_natal_analysis, generate_chart_appendices,
   generate_report_draft, interrogate_report_draft,
   generate_kerykeion_transit_chart, save_transit_analysis,
   send_transit_analysis]

/-- The canonical fully sequential execution order of the flow. -/
def linearSchedule : List Step := allSteps

/-- C1 (counterexample): the claimed DAG shape is false for the code as
written — the declared gates let `review_transit_analysis` complete before
`generate_natal_analysis`, so a review step does not wait for all three
analysis steps. -/
theorem C1_counterexample : ¬ claimedDagShape := by
  intro h
  have h2 := (h earlyReviewSchedule (by decide)).2.2.1
    generate_natal_analysis (by decide) review_transit_analysis (by decide)
  exact absurd h2 (by decide)

/-- C1 (amended): in every execution respecting the declared gates, the
three chart steps run only after `setup_qdrant`; each analysis step runs
only after all three chart steps; each review step runs only after its own
analysis step (not after all three); each review completes before
`generate_chart_appendices`; and the tail runs in the stated linear
order. -/
theorem C1_flow_dag_shape (l : List Step) (hv : validSchedule l = true) :
    (∀ c ∈ chartSteps, l.indexOf setup_qdrant < l.indexOf c) ∧
    (∀ c ∈ chartSteps, ∀ a ∈ analysisSteps, l.indexOf c < l.indexOf a) ∧
    (l.indexOf generate_transit_analysis < l.indexOf review_transit_analysis ∧
     l.indexOf generate_natal_analysis < l.indexOf review_natal_analysis ∧
     l.indexOf generate_transit_to_natal_analysis <
       l.indexOf review_transit_to_natal_analysis) ∧
    (∀ r ∈ reviewSteps, l.indexOf r < l.indexOf generate_chart_appendices) ∧
    tailChain l := by
  have hp : ∀ a b : Step, precedes a b = true →
      l.indexOf a < l.indexOf b := fun a b h => indexOf_lt_of_precedes hv h
  refine ⟨?_, ?_, ⟨?_, ?_, ?_⟩, ?_, ?_, ?_, ?_, ?_, ?_⟩
  · intro c hc
    exact hp _ _ (by revert hc; cases c <;> decide)
  · intro c hc a ha
    exact hp _ _ (by revert hc ha; cases c <;> cases a <;> decide)
  · exact hp _ _ (by decide)
  · exact hp _ _ (by decide)
  · exact hp _ _ (by decide)
  · intro r hr
    exact hp _ _ (by revert hr; cases r <;> decide)
  · exact hp _ _ (by decide)
  · exact hp _ _ (by decide)
  · exact hp _ _ (by decide)
  · exact hp _ _ (by decide)
  · exact hp _ _ (by decide)

/-- Witness for `C1_flow_dag_shape` at the sequential schedule. -/
theorem C1_flow_dag_shape_witness :
    (∀ c ∈ chartSteps,
      linearSchedule.indexOf setup_qdrant < linearSchedule.indexOf c) ∧
    (∀ c ∈ chartSteps, ∀ a ∈ analysisSteps,
      linearSchedule.indexOf c < linearSchedule.indexOf a) ∧
    (linearSchedule.indexOf generate_transit_analysis <
       linearSchedule.indexOf review_transit_analysis ∧
     linearSchedule.indexOf generate_natal_analysis <
       linearSchedule.indexOf review_natal_analysis ∧
     linearSchedule.indexOf generate_transit_to_natal_analysis <
       linearSchedule.indexOf review_transit_to_natal_analysis) ∧
    (∀ r ∈ reviewSteps,
      linearSchedule.indexOf r < linearSchedule.indexOf generate_chart_appendices) ∧
    tailChain linearSchedule :=
  C1_flow_dag_shape linearSchedule (by decide)

/-- The fields declared on the `TransitState` pydantic model
(`utils/models.py`), in declaration order. -/
def declaredFields : List String :=
  ["name", "email",
   "date_of_birth", "dob", "birthplace", "birthplace_city",
   "birthplace_country", "birthplace_latitude", "birthplace_longitude",
   "birthplace_timezone",
   "today", "transit_datetime", "transit_date_formatted",
   "current_location", "current_location_city", "current_location_country",
   "current_location_latitude", "current_location_longitude",
   "current_location_timezone", "is_custom_transit",
   "current_transits", "transit_analysis", "natal_chart", "natal_analysis",
   "transit_to_natal_chart", "transit_to_natal_analysis",
   "kerykeion_transit_chart", "report_markdown", "report_pdf"]

/-- The fields given meaningful values when the state is built by
`create_transit_state` (`utils/models.py`), i.e. everything except the
analysis-output fields (which only default to the empty string). -/
def initFields : List String :=
  ["name", "email",
   "date_of_birth", "dob", "birthplace", "birthplace_city",
   "birthplace_country", "birthplace_latitude", "birthplace_longitude",
   "birthplace_timezone",
   "today", "transit_datetime", "transit_date_formatted",
   "current_location", "current_location_city", "current_location_country",
   "current_location_latitude", "current_location_longitude",
   "current_location_timezone", "is_custom_transit"]

/-- The state attributes each step of `TransitFlow` reads (`self.state.f`
occurrences in `main.py`), in the order of their first occurrence in the
method body. -/
def reads : Step → List String
  | setup_qdrant => []
  | generate_current_transits =>
      ["current_location_latitude", "current_location_longitude",
       "transit_datetime"]
  | get_natal_chart_data =>
      ["date_of_birth", "birthplace_latitude", "birthplace_longitude"]
  | get_transit_to_natal_chart_data =>
      ["current_location_latitude", "current_location_longitude",
       "date_of_birth", "birthplace_latitude", "birthplace_longitude",
       "transit_datetime"]
  | generate_transit_analysis =>
      ["current_transits", "name", "transit_date_formatted",
       "current_location", "biographical_context"]
  | generate_natal_analysis =>
      ["natal_chart", "name", "dob", "birthplace", "today",
       "biographical_context"]
  | generate_transit_to_natal_analysis =>
      ["transit_to_natal_chart", "name", "transit_date_formatted", "dob",
       "birthplace", "current_location", "biographical_context"]
  | review_transit_analysis =>
      ["transit_analysis", "current_transits", "transit_date_formatted",
       "name", "current_location"]
  | review_natal_analysis =>
      ["natal_analysis", "natal_chart", "name", "today", "dob", "birthplace"]
  | review_transit_to_natal_analysis =>
      ["transit_to_natal_analysis", "transit_to_natal_chart", "name",
       "transit_date_formatted", "dob", "birthplace", "current_location"]
  | generate_chart_appendices =>
      ["include_appendices", "transit_analysis", "current_transits",
       "natal_analysis", "natal_chart", "transit_to_natal_analysis",
       "transit_to_natal_chart", "name", "transit_date_formatted", "dob",
       "birthplace", "current_location"]
  | generate_report_draft =>
      ["transit_analysis", "natal_analysis", "transit_to_natal_analysis",
       "name", "today", "transit_date_formatted", "is_custom_transit",
       "current_location", "dob", "birthplace", "biographical_context"]
  | interrogate_report_draft =>
      ["report_markdown", "transit_analysis", "natal_analysis",
       "transit_to_natal_analysis", "current_transits", "natal_chart",
       "transit_to_natal_chart", "today", "transit_date_formatted", "name",
       "current_location", "dob", "birthplace"]
  | generate_kerykeion_transit_chart =>
      ["name", "date_of_birth", "birthplace_city", "birthplace_country",
       "birthplace_longitude", "birthplace_latitude", "birthplace_timezone",
       "transit_datetime", "is_custom_transit", "current_location_city",
       "current_location_country", "current_location_longitude",
       "current_location_latitude", "current_location_timezone"]
  | save_transit_analysis =>
      ["name", "report_markdown", "kerykeion_transit_chart",
       "chart_appendices"]
  | send_transit_analysis =>
      ["transit_analysis", "report_pdf", "name", "email", "today",
       "transit_date_formatted"]

/-- The state attributes each step of `TransitFlow` assigns
(`self.state.f = ...` occurrences in `main.py`). -/
def writes : Step → List String
  | setup_qdrant => []
  | generate_current_transits => ["current_transits"]
  | get_natal_chart_data => ["natal_chart"]
  | get_transit_to_natal_chart_data => ["transit_to_natal_chart"]
  | generate_transit_analysis => ["transit_analysis"]
  | generate_natal_analysis => ["natal_analysis"]
  | generate_transit_to_natal_analysis => ["transit_to_natal_analysis"]
  | review_transit_analysis => ["transit_analysis"]
  | review_natal_analysis => ["natal_analysis"]
  | review_transit_to_natal_analysis => ["transit_to_natal_analysis"]
  | generate_chart_appendices => ["chart_appendices"]
  | generate_report_draft => ["report_markdown"]
  | interrogate_report_draft => ["report_markdown"]
  | generate_kerykeion_transit_chart => ["kerykeion_transit_chart"]
  | save_transit_analysis => ["report_markdown", "report_pdf"]
  | send_transit_analysis => []

/-- C2 as stated: any two distinct steps assign disjoint sets of state
fields. -/
def claimedDisjointWrites : Prop :=
  ∀ a b : Step, a ≠ b → ∀ f, f ∈ writes a → f ∉ writes b

/-- C2 (counterexample): `generate_transit_analysis` and
`review_transit_analysis` both assign `transit_analysis`, so the write
sets of distinct steps are not disjoint. -/
theorem C2_counterexample : ¬ claimedDisjointWrites := fun h =>
  h generate_transit_analysis review_transit_analysis (by decide)
    "transit_analysis" (by decide) (by decide)

/-- C2 (amended): write sets can only overlap between steps the declared
dependency graph already orders; any two steps that may run concurrently
(neither is a transitive prerequisite of the other) assign disjoint sets
of state fields, so no field is written by two unordered steps. -/
theorem C2_unordered_steps_write_disjoint (a b : Step) (hne : a ≠ b)
    (hab : precedes a b = false) (hba : precedes b a = false) :
    ∀ f, f ∈ writes a → f ∉ writes b := by
  revert hne hab hba
  revert a b
  decide

/-- Witness for `C2_unordered_steps_write_disjoint` on two parallel chart
steps. -/
theorem C2_unordered_steps_write_disjoint_witness :
    "current_transits" ∉ writes get_natal_chart_data :=
  C2_unordered_steps_write_disjoint generate_current_transits
    get_natal_chart_data (by decide) (by decide) (by decide)
    "current_transits" (by decide)

/-- C3 as stated: every attribute a step reads off the shared state is
either set when `TransitState` is initialized or assigned by a step the
dependency graph orders strictly before the reader. -/
def claimedReadsAfterWrites : Prop :=
  ∀ s : Step, ∀ f ∈ reads s,
    f ∈ initFields ∨ ∃ w : Step, f ∈ writes w ∧ precedes w s = true

/-- C3 (counterexample): `generate_transit_analysis` reads
`biographical_context`, which is not a declared `TransitState` field, is
not set at initialization, and is assigned by no step at all; likewise
`generate_chart_appendices` reads the undeclared `include_appendices`. -/
theorem C3_counterexample : ¬ claimedReadsAfterWrites := by
  unfold claimedReadsAfterWrites
  decide

/-- C3 (amended): restricted to attributes that are declared fields of
`TransitState`, every field a step reads is either set at state
initialization or assigned by a step that is a strict transitive
prerequisite of the reader, hence (via `indexOf_lt_of_precedes`) assigned
before the read in every execution respecting the gates. -/
theorem C3_declared_reads_after_writes (l : List Step)
    (hv : validSchedule l = true) :
    ∀ s : Step, ∀ f ∈ reads s, f ∈ declaredFields →
      f ∈ initFields ∨
        ∃ w : Step, f ∈ writes w ∧ l.indexOf w < l.indexOf s := by
  have core : ∀ s : Step, ∀ f ∈ reads s, f ∈ declaredFields →
      f ∈ initFields ∨ ∃ w : Step, f ∈ writes w ∧ precedes w s = true := by
    decide
  intro s f hf hd
  rcases core s f hf hd with h | ⟨w, hw, hp⟩
  · exact Or.inl h
  · exact Or.inr ⟨w, hw, indexOf_lt_of_precedes hv hp⟩

/-- Witness for `C3_declared_reads_after_writes`: in the sequential
schedule, the `current_transits` value read by `generate_transit_analysis`
was produced by an earlier step. -/
theorem C3_declared_reads_after_writes_witness :
    "current_transits" ∈ initFields ∨
      ∃ w : Step, "current_transits" ∈ writes w ∧
        linearSchedule.indexOf w < linearSchedule.indexOf generate_transit_analysis :=
  C3_declared_reads_after_writes linearSchedule (by decide)
    generate_transit_analysis "current_transits" (by decide) (by decide)

/-- Reading one attribute off a pydantic model: an attribute that is not a
declared field raises `AttributeError`. -/
def readAttr (fields : List String) (f : String) : Except String Unit :=
  if f ∈ fields then Except.ok () else Except.error ("AttributeError: " ++ f)

/-- Perform a step's state reads in order against the declared field list,
stopping at the first undeclared attribute. -/
def runReads (fields : List String) : List String → Except String Unit
  | [] => Except.ok ()
  | f :: rest =>
      match readAttr fields f with
      | Except.ok _ => runReads fields rest
      | Except.error e => Except.error e

/-- C9: `TransitState` declares no `include_appendices` field, the very
first state read of `generate_chart_appendices` is `include_appendices`,
and so executing the step's reads against the declared fields errors at
that first read — for every state value the step's non-error path is
unreachable. -/
theorem C9_include_appendices_undeclared :
    "include_appendices" ∉ declaredFields ∧
    (reads generate_chart_appendices).head? = some "include_appendices" ∧
    runReads declaredFields (reads generate_chart_appendices) =
      Except.error ("AttributeError: " ++ "include_appendices") :=
  ⟨by decide, by decide, rfl⟩

/-! ## Markdown chunking (`Setup.extract_text_from_markdown`) -/

/-- `content[p : p + sub.length] == sub`. -/
def matchesAt (content sub : List Char) (p : Nat) : Bool :=
  (content.drop p).take sub.length == sub

/-- Python's `content.rfind(sub, start, stop)`: the largest `p` with
`start ≤ p`, `p + sub.length ≤ stop` and `sub` occurring at `p`, if any
(`-1` becomes `none`). -/
def pyRfind (content sub : List Char) (start stop : Nat) : Option Nat :=
  (List.range stop).reverse.find? (fun p =>
    decide (start ≤ p) && decide (p + sub.length ≤ stop) && matchesAt content sub p)

/-- `look_back_range = min(100, chunk_size // 10)` with `chunk_size = 1500`. -/
def lookBackRange : Nat := min 100 (1500 / 10)

/-- The natural-break adjustment of the chunk end position: first a
`"\n\n"` search, then `". "`, `"! "`, `"? "`, `"\n"` in order, each
within the last `look_back_range` characters before `e`; a double-newline
hit replaces `e` by the hit position, a punctuation hit by the position
plus one. -/
def adjustEnd (content : List Char) (e : Nat) : Nat :=
  match pyRfind content ['\n', '\n'] (e - lookBackRange) e with
  | some p => p
  | none =>
    match pyRfind content ['.', ' '] (e - lookBackRange) e with
    | some p => p + 1
    | none =>
      match pyRfind content ['!', ' '] (e - lookBackRange) e with
      | some p => p + 1
      | none =>
        match pyRfind content ['?', ' '] (e - lookBackRange) e with
        | some p => p + 1
        | none =>
          match pyRfind content ['\n'] (e - lookBackRange) e with
          | some p => p + 1
          | none => e

/-- The characters Python's `str.strip()` removes. -/
def pyIsSpace (c : Char) : Bool :=
  c == ' ' || c == '\t' || c == '\n' || c == '\r' || c == '\x0b' || c == '\x0c'

/-- Python's `str.strip()`. -/
def pyStrip (l : List Char) : List Char :=
  ((l.dropWhile pyIsSpace).reverse.dropWhile pyIsSpace).reverse

/-- `end_position = min(current_position + chunk_size, content_length)`
with `chunk_size = 1500`. -/
def rawEnd (content : List Char) (cur : Nat) : Nat :=
  min (cur + 1500) content.length

/-- The chunk end position after the natural-break adjustment, which is
applied only when `end_position < content_length`. -/
def endPosOf (content : List Char) (cur : Nat) : Nat :=
  if rawEnd content cur < content.length then adjustEnd content (rawEnd content cur)
  else rawEnd content cur

/-- `chunk = content[current_position:end_position].strip()`. -/
def chunkOf (content : List Char) (cur : Nat) : List Char :=
  pyStrip ((content.drop cur).take (endPosOf content cur - cur))

/-- `current_position = end_position - chunk_overlap if end_position <
content_length else content_length`, with `chunk_overlap = 250`. -/
def nextCurOf (content : List Char) (cur : Nat) : Nat :=
  if endPosOf content cur < content.length then endPosOf content cur - 250
  else content.length

/-- One iteration of the chunking `while` loop: the start position, the
(possibly adjusted) end position, and the stripped chunk text. -/
structure ChunkRec where
  startPos : Nat
  endPos : Nat
  text : List Char
  deriving DecidableEq, Repr

/-- The chunking `while` loop of `extract_text_from_markdown`, with
explicit fuel; `none` means the fuel ran out before the loop finished. -/
def chunkLoop (content : List Char) : Nat → Nat → Option (List ChunkRec)
  | 0, _ => none
  | fuel + 1, cur =>
    if cur < content.length then
      match chunkLoop content fuel (nextCurOf content cur) with
      | none => none
      | some rest =>
          some (⟨cur, endPosOf content cur, chunkOf content cur⟩ :: rest)
    else some []

/-- The full iteration trace of the chunking loop on `content`, run with
enough fuel for one iteration per remaining character. -/
def iterTrace (content : List Char) : Option (List ChunkRec) :=
  chunkLoop content (content.length + 1) 0

/-- The chunks actually appended to `text_chunks`: the code only appends
a chunk when it is non-empty after stripping (`if chunk:`). -/
def emittedChunks (trace : List ChunkRec) : List (List Char) :=
  (trace.filter (fun r => !r.text.isEmpty)).map ChunkRec.text

/-- The adjacency relation between consecutive loop iterations: the
earlier iteration's end position was short of the end of the content, and
the next iteration starts exactly `250` characters before it. -/
def chunkAdj (n : Nat) (r r' : ChunkRec) : Prop :=
  r.endPos < n ∧ r'.startPos = r.endPos - 250

lemma pyRfind_some {content sub : List Char} {start stop p : Nat}
    (h : pyRfind content sub start stop = some p) :
    start ≤ p ∧ p + sub.length ≤ stop := by
  have h2 := List.find?_some h
  rw [Bool.and_eq_true, Bool.and_eq_true] at h2
  exact ⟨of_decide_eq_true h2.1.1, of_decide_eq_true h2.1.2⟩

lemma adjustEnd_le (content : List Char) (e : Nat) : adjustEnd content e ≤ e := by
  unfold adjustEnd
  repeat' split
  all_goals
    first
    | omega
    | (rename_i p h
       have hb := (pyRfind_some h).2
       simp only [List.length_cons, List.length_nil] at hb
       omega)

lemma le_adjustEnd (content : List Char) (e : Nat) :
    e - lookBackRange ≤ adjustEnd content e := by
  unfold adjustEnd
  repeat' split
  all_goals
    first
    | omega
    | (rename_i p h
       have hb := (pyRfind_some h).1
       omega)

lemma pyStrip_length_le (l : List Char) : (pyStrip l).length ≤ l.length := by
  unfold pyStrip
  rw [List.length_reverse]
  calc ((l.dropWhile pyIsSpace).reverse.dropWhile pyIsSpace).length
      ≤ (l.dropWhile pyIsSpace).reverse.length :=
        (List.dropWhile_suffix pyIsSpace).sublist.length_le
    _ = (l.dropWhile pyIsSpace).length := List.length_reverse _
    _ ≤ l.length := (List.dropWhile_suffix pyIsSpace).sublist.length_le

lemma endPosOf_le (content : List Char) (cur : Nat) :
    endPosOf content cur ≤ cur + 1500 := by
  unfold endPosOf rawEnd
  split
  · exact le_trans (adjustEnd_le content _) (min_le_left _ _)
  · exact min_le_left _ _

lemma chunkOf_length_le (content : List Char) (cur : Nat) :
    (chunkOf content cur).length ≤ 1500 := by
  unfold chunkOf
  have h1 := pyStrip_length_le ((content.drop cur).take (endPosOf content cur - cur))
  have h2 : ((content.drop cur).take (endPosOf content cur - cur)).length ≤
      endPosOf content cur - cur := by
    rw [List.length_take]; exact min_le_left _ _
  have h3 := endPosOf_le content cur
  omega

lemma nextCurOf_gt (content : List Char) (cur : Nat)
    (hc : cur < content.length) : cur < nextCurOf content cur := by
  unfold nextCurOf endPosOf rawEnd
  rcases Nat.lt_or_ge (cur + 1500) content.length with hcase | hcase
  · have hmin : min (cur + 1500) content.length = cur + 1500 :=
      min_eq_left (by omega)
    rw [hmin, if_pos hcase]
    have h1 : (cur + 1500) - lookBackRange ≤ adjustEnd content (cur + 1500) :=
      le_adjustEnd content (cur + 1500)
    have h2 : adjustEnd content (cur + 1500) ≤ cur + 1500 :=
      adjustEnd_le content (cur + 1500)
    have hlb : lookBackRange = 100 := rfl
    rw [hlb] at h1
    split <;> omega
  · have hmin : min (cur + 1500) content.length = content.length :=
      min_eq_right (by omega)
    rw [hmin, if_neg (lt_irrefl content.length), if_neg (lt_irrefl content.length)]
    exact hc

lemma chunkLoop_spec (content : List Char) :
    ∀ (fuel cur : Nat), content.length - cur < fuel →
      ∃ trace, chunkLoop content fuel cur = some trace ∧
        (cur < content.length →
          ∃ r rest, trace = r :: rest ∧ r.startPos = cur) ∧
        (content.length ≤ cur → trace = []) ∧
        (∀ r ∈ trace, r.text.length ≤ 1500) ∧
        List.Chain' (chunkAdj content.length) trace := by
  intro fuel
  induction fuel with
  | zero => intro cur h; omega
  | succ fuel ih =>
    intro cur hfc
    by_cases hc : cur < content.length
    · have hnext := nextCurOf_gt content cur hc
      obtain ⟨rest, hrest, hhead, hnil, hlen, hchain⟩ :=
        ih (nextCurOf content cur) (by omega)
      refine ⟨⟨cur, endPosOf content cur, chunkOf content cur⟩ :: rest, ?_, ?_, ?_, ?_, ?_⟩
      · unfold chunkLoop
        rw [if_pos hc, hrest]
      · intro _; exact ⟨_, rest, rfl, rfl⟩
      · intro h; omega
      · intro r hr
        rcases List.mem_cons.mp hr with h | h
        · subst h; exact chunkOf_length_le content cur
        · exact hlen r h
      · rw [List.chain'_cons']
        refine ⟨?_, hchain⟩
        intro b hb
        by_cases he : endPosOf content cur < content.length
        · have hn : nextCurOf content cur = endPosOf content cur - 250 := by
            unfold nextCurOf; rw [if_pos he]
          have hnc : nextCurOf content cur < content.length := by omega
          obtain ⟨r, rest', hr, hrs⟩ := hhead hnc
          rw [hr] at hb
          simp only [List.head?_cons, Option.mem_def, Option.some_inj] at hb
          subst hb
          exact ⟨he, by rw [hrs, hn]⟩
        · have hn : nextCurOf content cur = content.length := by
            unfold nextCurOf; rw [if_neg he]
          have := hnil (by omega)
          subst this
          simp at hb
    · refine ⟨[], ?_, ?_, ?_, ?_, ?_⟩
      · unfold chunkLoop; rw [if_neg hc]
      · intro h; omega
      · intro _; rfl
      · intro r hr; simp at hr
      · exact List.chain'_nil

/-- C5: the chunking loop of `extract_text_from_markdown` terminates on
every content string (the trace is produced with finite fuel), every
chunk appended to `text_chunks` is non-empty and at most `1500`
characters long, and whenever an iteration's end position falls short of
the content length the next iteration starts exactly `250` characters
before that end position. -/
theorem C5_chunking (content : List Char) :
    ∃ trace, iterTrace content = some trace ∧
      (∀ c ∈ emittedChunks trace, c ≠ [] ∧ c.length ≤ 1500) ∧
      List.Chain' (chunkAdj content.length) trace := by
  obtain ⟨trace, htrace, _, _, hlen, hchain⟩ :=
    chunkLoop_spec content (content.length + 1) 0 (by omega)
  refine ⟨trace, htrace, ?_, hchain⟩
  intro c hc
  unfold emittedChunks at hc
  rw [List.mem_map] at hc
  obtain ⟨r, hr, hrc⟩ := hc
  rw [List.mem_filter] at hr
  constructor
  · intro hnil
    have : r.text.isEmpty = true := by rw [hrc, hnil]; rfl
    rw [this] at hr
    simp at hr
  · rw [← hrc]; exact hlen r hr.1

/-! ## Knowledge ingestion dedup (`Setup.process_new_markdown_files`) -/

/-- A markdown file found by `DOCS_DIR.glob("*.md")`: its basename
(`md_file.name`, used as the `source` tag) and its full path
(`str(md_file)`, used for the session-local `processed_files` set). -/
structure MDFile where
  name : String
  path : String
  deriving DecidableEq, Repr

/-- The environment `process_new_markdown_files` consults: whether the
Qdrant client was initialized, whether the collection exists, and for each
source name the number of points whose `source` payload matches it
(the result of `qdrant_client.count` with a `source` filter). -/
structure QdrantEnv where
  clientPresent : Bool
  collectionExists : Bool
  sourceCount : String → Nat

/-- The file-selection loop of `process_new_markdown_files`: a file is
skipped when its path is already in the session `processed_files` set;
otherwise, when the client and the collection are available and the
collection already holds at least one point tagged with the file's name,
the path is added to `processed_files` and the file is skipped; all other
files are collected as `new_files` in order. -/
def selectNewAux (env : QdrantEnv) :
    List String → List MDFile → List MDFile × List String
  | processed, [] => ([], processed)
  | processed, f :: rest =>
    if f.path ∈ processed then selectNewAux env processed rest
    else if env.clientPresent && env.collectionExists then
      if 0 < env.sourceCount f.name then
        selectNewAux env (f.path :: processed) rest
      else
        let r := selectNewAux env processed rest
        (f :: r.1, r.2)
    else
      let r := selectNewAux env processed rest
      (f :: r.1, r.2)

/-- The `new_files` list computed by `process_new_markdown_files`; the
subsequent `for file_path in new_files` loop — the only place where
`extract_text_from_markdown`, `generate_gemini_embeddings` and
`store_in_qdrant` are invoked — iterates over exactly this list. -/
def newFiles (env : QdrantEnv) (processed : List String)
    (files : List MDFile) : List MDFile :=
  (selectNewAux env processed files).1

lemma selectNewAux_filter (env : QdrantEnv)
    (hclient : env.clientPresent = true) (hcoll : env.collectionExists = true) :
    ∀ (files : List MDFile) (processed : List String),
      (files.map MDFile.path).Nodup →
      (selectNewAux env processed files).1 =
        files.filter (fun f =>
          !processed.contains f.path && env.sourceCount f.name == 0) := by
  intro files
  induction files with
  | nil => intro processed _; rfl
  | cons f rest ih =>
    intro processed hnodup
    rw [List.map_cons, List.nodup_cons] at hnodup
    obtain ⟨hf, hrest⟩ := hnodup
    unfold selectNewAux
    rw [hclient, hcoll]
    simp only [Bool.and_self, if_true]
    by_cases hp : f.path ∈ processed
    · have hpred : (!processed.contains f.path && env.sourceCount f.name == 0) = false := by
        simp [hp]
      rw [if_pos hp, List.filter_cons, hpred, ih processed hrest]
      simp
    · by_cases hcount : 0 < env.sourceCount f.name
      · have hpred : (!processed.contains f.path && env.sourceCount f.name == 0) = false := by
          simp only [Bool.and_eq_false_iff]
          right
          simpa using Nat.pos_iff_ne_zero.mp hcount
        have hcong : rest.filter (fun g =>
              !(f.path :: processed).contains g.path && env.sourceCount g.name == 0) =
            rest.filter (fun g =>
              !processed.contains g.path && env.sourceCount g.name == 0) := by
          apply List.filter_congr
          intro g hg
          have hgf : g.path ≠ f.path := by
            intro hEq
            exact hf (hEq ▸ List.mem_map_of_mem MDFile.path hg)
          simp [List.contains_cons, hgf]
        rw [if_neg hp, if_pos hcount, ih (f.path :: processed) hrest, hcong,
          List.filter_cons, hpred]
        simp
      · have hpred : (!processed.contains f.path && env.sourceCount f.name == 0) = true := by
          simp only [Bool.and_eq_true]
          constructor
          · simpa using hp
          · simpa using Nat.eq_zero_of_not_pos hcount
        rw [if_neg hp, if_neg hcount]
        show f :: (selectNewAux env processed rest).1 = _
        rw [List.filter_cons, hpred, ih processed hrest]
        simp

/-- C4: with the client and collection available, the `new_files` list of
`process_new_markdown_files` consists exactly of the files not already
processed this session whose name tags no point of the collection; in
particular every file whose name appears as the `source` payload of at
least one point (count > 0) is skipped and never reaches the
chunk/embed/upsert loop. -/
theorem C4_dedup_by_source_tag (env : QdrantEnv) (processed : List String)
    (files : List MDFile)
    (hclient : env.clientPresent = true) (hcoll : env.collectionExists = true)
    (hnodup : (files.map MDFile.path).Nodup) :
    newFiles env processed files =
      files.filter (fun f =>
        !processed.contains f.path && env.sourceCount f.name == 0) ∧
    ∀ f ∈ files, 0 < env.sourceCount f.name →
      f ∉ newFiles env processed files := by
  have hmain := selectNewAux_filter env hclient hcoll files processed hnodup
  refine ⟨hmain, ?_⟩
  intro f _ hcount hmem
  unfold newFiles at hmem
  rw [hmain] at hmem
  rw [List.mem_filter] at hmem
  have := hmem.2
  rw [Bool.and_eq_true] at this
  have h0 : env.sourceCount f.name = 0 := by simpa using this.2
  omega

/-- Witness for `C4_dedup_by_source_tag`: a file already tagged in the
collection is skipped while a fresh file is selected. -/
theorem C4_dedup_by_source_tag_witness :
    newFiles ⟨true, true, fun n => if n == "old.md" then 3 else 0⟩ []
        [⟨"old.md", "docs/old.md"⟩, ⟨"new.md", "docs/new.md"⟩] =
      [⟨"new.md", "docs/new.md"⟩] ∧
    (⟨"old.md", "docs/old.md"⟩ : MDFile) ∉
      newFiles ⟨true, true, fun n => if n == "old.md" then 3 else 0⟩ []
        [⟨"old.md", "docs/old.md"⟩, ⟨"new.md", "docs/new.md"⟩] := by
  have h := C4_dedup_by_source_tag
    ⟨true, true, fun n => if n == "old.md" then 3 else 0⟩ []
    [⟨"old.md", "docs/old.md"⟩, ⟨"new.md", "docs/new.md"⟩]
    rfl rfl (by decide)
  refine ⟨?_, h.2 ⟨"old.md", "docs/old.md"⟩ (by decide) (by decide)⟩
  rw [h.1]
  rfl

/-! ## Error swallowing (`custom_gemini_embedding_fn`,
`Setup.generate_gemini_embeddings`, `QdrantSearchTool._run`) -/

/-- The value of the Gemini `embed_content` response visible to
`custom_gemini_embedding_fn`: the `embeddings` field, each embedding being
its list of `values` (element type kept abstract — the code never inspects
individual floats). `Except.error` is a raised exception. -/
structure EmbedResult (α : Type) where
  embeddings : List (List α)

/-- `custom_gemini_embedding_fn` (`utils/embeddings_fn.py`): on a raised
exception return `None`; on a response with no embeddings or empty values
print and return `None`; otherwise return the first embedding's values. -/
def custom_gemini_embedding_fn {α : Type}
    (api : Except String (EmbedResult α)) : Option (List α) :=
  match api with
  | Except.error _ => none
  | Except.ok r =>
    match r.embeddings with
    | [] => none
    | vs :: _ => if vs.isEmpty then none else some vs

/-- A text chunk handed to `generate_gemini_embeddings`. -/
structure Chunk where
  text : String
  source : String
  deriving DecidableEq, Repr

/-- A chunk together with its embedding. -/
structure EmbChunk (α : Type) where
  text : String
  source : String
  embedding : List α
  deriving DecidableEq, Repr

/-- `Setup.generate_gemini_embeddings` (`utils/qdrant_setup.py`): without
a Gemini client return `[]`; otherwise embed each chunk in order (the
batch grouping only affects the progress display), appending successful
chunks and dropping any chunk whose `embed_content` call raises or whose
response has no first embedding (`embeddings[0]` raising `IndexError`
inside the `try`). -/
def generate_gemini_embeddings {α : Type} (clientPresent : Bool)
    (embedApi : String → Except String (List (List α)))
    (chunks : List Chunk) : List (EmbChunk α) :=
  if clientPresent then
    chunks.foldl (fun acc c =>
      match embedApi c.text with
      | Except.error _ => acc
      | Except.ok [] => acc
      | Except.ok (vs :: _) => acc ++ [⟨c.text, c.source, vs⟩]) []
  else []

/-- The per-chunk outcome of the embedding loop. -/
def embedOne {α : Type} (embedApi : String → Except String (List (List α)))
    (c : Chunk) : Option (EmbChunk α) :=
  match embedApi c.text with
  | Except.ok (vs :: _) => some ⟨c.text, c.source, vs⟩
  | _ => none

lemma generate_foldl_eq {α : Type}
    (embedApi : String → Except String (List (List α))) :
    ∀ (chunks : List Chunk) (acc : List (EmbChunk α)),
      chunks.foldl (fun acc c =>
        match embedApi c.text with
        | Except.error _ => acc
        | Except.ok [] => acc
        | Except.ok (vs :: _) => acc ++ [⟨c.text, c.source, vs⟩]) acc =
      acc ++ chunks.filterMap (embedOne embedApi) := by
  intro chunks
  induction chunks with
  | nil => intro acc; simp
  | cons c rest ih =>
    intro acc
    rw [List.foldl_cons, List.filterMap_cons]
    cases h : embedApi c.text with
    | error e => simp only [h, embedOne, ih]
    | ok embs =>
      cases embs with
      | nil => simp only [h, embedOne, ih]
      | cons vs tl =>
        simp only [h, embedOne, ih, List.append_assoc, List.cons_append,
          List.nil_append]

/-- A Qdrant search hit as `_run` consumes it: its payload entries and its
(pre-rendered) similarity score. -/
structure SearchPoint where
  payload : List (String × String)
  score : String
  deriving DecidableEq, Repr

/-- One entry of the `results` list built by `_run`, rendered as Python's
`str` renders the dictionary literal. -/
def renderItem (p : SearchPoint) : String :=
  "\x7b'metadata': '" ++ ((p.payload.lookup "source").getD "") ++
  "', 'context': '" ++ ((p.payload.lookup "text").getD "") ++
  "', 'score': " ++ p.score ++ "\x7d"

/-- `str(results)` for the list of result dictionaries. -/
def renderResults (ps : List SearchPoint) : String :=
  "[" ++ String.intercalate ", " (ps.map renderItem) ++ "]"

/-- `QdrantSearchTool._run` (`tools/qdrant_search_tool.py`): no client
yields a fixed message; a failed query embedding yields an error message;
a search exception is caught and an error-description string is returned;
otherwise the rendered result list is returned. -/
def qdrantSearchRun {α : Type} (clientPresent : Bool)
    (embedOutcome : Option (List α))
    (search : List α → Except String (List SearchPoint)) : String :=
  if clientPresent then
    match embedOutcome with
    | none => "Error: Could not generate embedding for the query."
    | some v =>
      match search v with
      | Except.error e => "Error during Qdrant search: " ++ e
      | Except.ok pts => renderResults pts
  else "Qdrant client not initialized."

/-- An empty `_run` result: the empty string or the rendering of an empty
result list. -/
def isEmptyResult (s : String) : Prop := s = "" ∨ s = "[]"

/-- C6 as stated, for the `_run` conjunct: whenever the underlying search
call raises, `_run` returns an empty result. -/
def claimedRunReturnsEmpty : Prop :=
  ∀ (v : List Unit) (e : String)
    (search : List Unit → Except String (List SearchPoint)),
    search v = Except.error e →
    isEmptyResult (qdrantSearchRun true (some v) search)

/-- C6 (counterexample): when the search call raises, `_run` returns the
string `"Error during Qdrant search: ..."`, which is not an empty
result. -/
theorem C6_counterexample : ¬ claimedRunReturnsEmpty := by
  intro h
  have h2 := h [] "boom" (fun _ => Except.error "boom") rfl
  rcases h2 with h2 | h2 <;> exact absurd h2 (by decide)

/-- C6 (amended): failures are swallowed, not propagated —
`custom_gemini_embedding_fn` returns `None` whenever the API call raises;
`generate_gemini_embeddings` returns the successful chunks in order,
omitting every failed chunk (so the empty list when all fail) and never
raising; and `QdrantSearchTool._run` catches a raising search call and
returns an error-description string (not an empty result) rather than
raising. -/
theorem C6_errors_swallowed {α : Type} :
    (∀ e : String,
      custom_gemini_embedding_fn (α := α) (Except.error e) = none) ∧
    (∀ (embedApi : String → Except String (List (List α)))
       (chunks : List Chunk),
      generate_gemini_embeddings true embedApi chunks =
        chunks.filterMap (embedOne embedApi)) ∧
    (∀ (embedApi : String → Except String (List (List α)))
       (chunks : List Chunk),
      (∀ c ∈ chunks, ∃ e, embedApi c.text = Except.error e) →
      generate_gemini_embeddings true embedApi chunks = []) ∧
    (∀ (v : List α) (e : String)
       (search : List α → Except String (List SearchPoint)),
      search v = Except.error e →
      qdrantSearchRun true (some v) search =
        "Error during Qdrant search: " ++ e) := by
  refine ⟨fun e => rfl, ?_, ?_, ?_⟩
  · intro embedApi chunks
    unfold generate_gemini_embeddings
    rw [if_pos rfl, generate_foldl_eq, List.nil_append]
  · intro embedApi chunks hall
    unfold generate_gemini_embeddings
    rw [if_pos rfl, generate_foldl_eq, List.nil_append]
    apply List.filterMap_eq_nil_iff.mpr
    intro c hc
    obtain ⟨e, he⟩ := hall c hc
    unfold embedOne
    rw [he]
  · intro v e search hs
    unfold qdrantSearchRun
    rw [if_pos rfl]
    simp only [hs]

/-- Witness for `C6_errors_swallowed` at concrete failing calls. -/
theorem C6_errors_swallowed_witness :
    custom_gemini_embedding_fn (α := Unit) (Except.error "boom") = none ∧
    generate_gemini_embeddings (α := Unit) true
      (fun _ => Except.error "boom") [⟨"text", "src.md"⟩] = [] ∧
    qdrantSearchRun (α := Unit) true (some [])
      (fun _ => Except.error "boom") = "Error during Qdrant search: " ++ "boom" :=
  ⟨(C6_errors_swallowed (α := Unit)).1 "boom",
   (C6_errors_swallowed (α := Unit)).2.2.1 (fun _ => Except.error "boom")
     [⟨"text", "src.md"⟩] (fun _ _ => ⟨"boom", rfl⟩),
   (C6_errors_swallowed (α := Unit)).2.2.2 [] "boom"
     (fun _ => Except.error "boom") rfl⟩

/-! ## Collection invariant (`Setup.store_in_qdrant`) -/

/-- Qdrant distance metrics. -/
inductive Dist where
  | cosine
  | dot
  | euclid
  deriving DecidableEq, Repr

/-- A collection's vector configuration (`VectorParams`). -/
structure CollectionCfg where
  size : Nat
  dist : Dist
  deriving DecidableEq, Repr

/-- A stored point: its vector and its payload entries. -/
structure QPoint (α : Type) where
  vector : List α
  payload : List (String × String)
  deriving DecidableEq, Repr

/-- The Qdrant client calls `store_in_qdrant` issues, in order. -/
inductive QOp (α : Type) where
  | deleteCollection
  | createCollection (cfg : CollectionCfg)
  | createPayloadIndex
  | upsert (points : List (QPoint α))
  deriving DecidableEq, Repr

/-- The `PointStruct` list built from the embeddings: each point's payload
is the dictionary literal `{"text": ..., "source": ...}`. -/
def pointsOf {α : Type} (items : List (EmbChunk α)) : List (QPoint α) :=
  items.map (fun it => ⟨it.embedding, [("text", it.text), ("source", it.source)]⟩)

/-- The batches `points[i : i + 100]` for `i in range(0, len(points), 100)`. -/
def batches100 {α : Type} : List α → List (List α)
  | [] => []
  | a :: rest => (a :: rest.take 99) :: batches100 (rest.drop 99)
termination_by l => l.length
decreasing_by
  simp only [List.length_cons, List.length_drop]
  omega

/-- The collection state after the exists/size check and the conditional
delete/create: a missing or wrong-size collection is replaced by a fresh
empty `3072`-dimension cosine collection, a correctly sized one is kept
unchanged (the code checks only `config.params.vectors.size`). -/
def storeDb2 {α : Type} (pre : Option (CollectionCfg × List (QPoint α))) :
    Option (CollectionCfg × List (QPoint α)) :=
  match pre with
  | some (cfg, pts) =>
      if cfg.size ≠ 3072 then some (⟨3072, Dist.cosine⟩, [])
      else some (cfg, pts)
  | none => some (⟨3072, Dist.cosine⟩, [])

/-- The client calls issued before any upsert: delete + create + payload
index when the collection had the wrong size, create + payload index when
it was missing, and only the (idempotent) payload-index call otherwise. -/
def storeOpsPre {α : Type} (pre : Option (CollectionCfg × List (QPoint α))) :
    List (QOp α) :=
  match pre with
  | some (cfg, _) =>
      if cfg.size ≠ 3072 then
        [QOp.deleteCollection, QOp.createCollection ⟨3072, Dist.cosine⟩,
         QOp.createPayloadIndex]
      else [QOp.createPayloadIndex]
  | none =>
      [QOp.createCollection ⟨3072, Dist.cosine⟩, QOp.createPayloadIndex]

/-- `Setup.store_in_qdrant`: returns the `True`/`False` result, the
resulting collection state, and the trace of client calls. Without a
client it returns `False` untouched; with no points to store it returns
`False` after the collection bookkeeping; otherwise it upserts the points
in batches of 100 and returns `True`. -/
def storeInQdrant {α : Type} (clientPresent : Bool)
    (pre : Option (CollectionCfg × List (QPoint α)))
    (items : List (EmbChunk α)) :
    Bool × Option (CollectionCfg × List (QPoint α)) × List (QOp α) :=
  if clientPresent then
    if (pointsOf items).isEmpty then
      (false, storeDb2 pre, storeOpsPre pre)
    else
      (true,
       (storeDb2 pre).map (fun c => (c.1, c.2 ++ pointsOf items)),
       storeOpsPre pre ++ (batches100 (pointsOf items)).map QOp.upsert)
  else (false, pre, [])

lemma mem_of_mem_batches100 {α : Type} :
    ∀ (l b : List α), b ∈ batches100 l → ∀ x ∈ b, x ∈ l := by
  intro l
  induction l using batches100.induct with
  | case1 => intro b hb; simp [batches100] at hb
  | case2 a rest ih =>
    intro b hb x hx
    rw [batches100] at hb
    rcases List.mem_cons.mp hb with hb | hb
    · subst hb
      rcases List.mem_cons.mp hx with hx | hx
      · exact hx ▸ List.mem_cons_self a rest
      · exact List.mem_cons_of_mem a (List.take_subset 99 rest hx)
    · exact List.mem_cons_of_mem a
        (List.drop_subset 99 rest (ih b hb x hx))

/-- C10 as stated by the spec claim: whenever `store_in_qdrant` returns
`True`, the collection exists with vector size `3072` and cosine
distance. -/
def claimedStoreCosine : Prop :=
  ∀ (pre : Option (CollectionCfg × List (QPoint Unit)))
    (items : List (EmbChunk Unit)),
    (storeInQdrant true pre items).1 = true →
    ∃ cfg pts, (storeInQdrant true pre items).2.1 = some (cfg, pts) ∧
      cfg.size = 3072 ∧ cfg.dist = Dist.cosine

/-- C10 (counterexample): the code checks only the vector size of an
existing collection, so a pre-existing `3072`-dimension collection with a
non-cosine distance is kept as-is and `store_in_qdrant` still returns
`True`. -/
theorem C10_counterexample : ¬ claimedStoreCosine := by
  intro h
  obtain ⟨cfg, pts, hpost, hsize, hdist⟩ :=
    h (some (⟨3072, Dist.dot⟩, []))
      [⟨"text", "src.md", []⟩] (by decide)
  have hval : (storeInQdrant true (some (⟨3072, Dist.dot⟩, []))
      [⟨"text", "src.md", ([] : List Unit)⟩]).2.1 =
      some (⟨3072, Dist.dot⟩,
        pointsOf [⟨"text", "src.md", ([] : List Unit)⟩]) := rfl
  rw [hval] at hpost
  rw [Option.some_inj] at hpost
  have hcfg : cfg = ⟨3072, Dist.dot⟩ := (congrArg Prod.fst hpost).symm
  rw [hcfg] at hdist
  exact absurd hdist (by decide)

/-- C10 (amended): whenever `store_in_qdrant` returns `True`, the
collection exists with vector size `3072` — with cosine distance whenever
this call created it (collection missing or wrongly sized beforehand; a
pre-existing `3072`-dimension collection is kept with its own distance) —
and every upserted point carries a payload with exactly the `text` and
`source` keys; a collection that existed with any other vector size is
deleted and recreated with size `3072` and cosine distance before any
upsert, and only the freshly stored points remain. -/
theorem C10_store_invariant {α : Type} (clientPresent : Bool)
    (pre : Option (CollectionCfg × List (QPoint α)))
    (items : List (EmbChunk α))
    (h : (storeInQdrant clientPresent pre items).1 = true) :
    (∃ cfg pts, (storeInQdrant clientPresent pre items).2.1 = some (cfg, pts) ∧
      cfg.size = 3072) ∧
    (pre = none →
      (storeInQdrant clientPresent pre items).2.1 =
        some (⟨3072, Dist.cosine⟩, pointsOf items)) ∧
    (∀ pcfg ppts, pre = some (pcfg, ppts) → pcfg.size ≠ 3072 →
      (storeInQdrant clientPresent pre items).2.1 =
        some (⟨3072, Dist.cosine⟩, pointsOf items) ∧
      (storeInQdrant clientPresent pre items).2.2 =
        QOp.deleteCollection :: QOp.createCollection ⟨3072, Dist.cosine⟩ ::
        QOp.createPayloadIndex ::
        (batches100 (pointsOf items)).map QOp.upsert) ∧
    (∀ op ∈ (storeInQdrant clientPresent pre items).2.2, ∀ batch,
      op = QOp.upsert batch →
      ∀ p ∈ batch, p.payload.map Prod.fst = ["text", "source"]) := by
  cases clientPresent with
  | false => exact absurd h (by simp [storeInQdrant])
  | true =>
    by_cases hempty : (pointsOf items).isEmpty = true
    · exact absurd h (by simp [storeInQdrant, hempty])
    · have hval : storeInQdrant true pre items =
          (true,
           (storeDb2 pre).map (fun c => (c.1, c.2 ++ pointsOf items)),
           storeOpsPre pre ++ (batches100 (pointsOf items)).map QOp.upsert) := by
        unfold storeInQdrant
        rw [if_pos rfl, if_neg hempty]
      rw [hval]
      refine ⟨?_, ?_, ?_, ?_⟩
      · cases pre with
        | none =>
          exact ⟨⟨3072, Dist.cosine⟩, pointsOf items, by simp [storeDb2], rfl⟩
        | some c =>
          obtain ⟨pcfg, ppts⟩ := c
          by_cases hsz : pcfg.size = 3072
          · refine ⟨pcfg, ppts ++ pointsOf items, ?_, hsz⟩
            simp [storeDb2, hsz]
          · refine ⟨⟨3072, Dist.cosine⟩, pointsOf items, ?_, rfl⟩
            simp [storeDb2, hsz]
      · intro hpre
        subst hpre
        simp [storeDb2]
      · intro pcfg ppts hpre hsz
        subst hpre
        constructor
        · simp [storeDb2, hsz]
        · simp [storeOpsPre, hsz]
      · intro op hop batch hopb p hp
        rw [List.mem_append] at hop
        rcases hop with hop | hop
        · -- no upsert op occurs among the pre-upsert calls
          exfalso
          rw [hopb] at hop
          cases pre with
          | none => simp [storeOpsPre] at hop
          | some c =>
            obtain ⟨pcfg, ppts⟩ := c
            by_cases hsz : pcfg.size = 3072 <;> simp [storeOpsPre, hsz] at hop
        · rw [List.mem_map] at hop
          obtain ⟨b, hb, hbop⟩ := hop
          rw [hopb] at hbop
          have hbatch : batch = b := by
            injection hbop.symm
          subst hbatch
          have hpoint := mem_of_mem_batches100 (pointsOf items) batch hb p hp
          unfold pointsOf at hpoint
          rw [List.mem_map] at hpoint
          obtain ⟨it, _, hit⟩ := hpoint
          rw [← hit]
          rfl

/-- Witness for `C10_store_invariant`: storing one embedding into an
absent collection. -/
theorem C10_store_invariant_witness :
    (∃ cfg pts,
      (storeInQdrant (α := Unit) true none [⟨"text", "src.md", []⟩]).2.1 =
        some (cfg, pts) ∧ cfg.size = 3072) ∧
    ((none : Option (CollectionCfg × List (QPoint Unit))) = none →
      (storeInQdrant (α := Unit) true none [⟨"text", "src.md", []⟩]).2.1 =
        some (⟨3072, Dist.cosine⟩, pointsOf [⟨"text", "src.md", []⟩])) ∧
    (∀ pcfg ppts,
      (none : Option (CollectionCfg × List (QPoint Unit))) = some (pcfg, ppts) →
      pcfg.size ≠ 3072 →
      (storeInQdrant (α := Unit) true none [⟨"text", "src.md", []⟩]).2.1 =
        some (⟨3072, Dist.cosine⟩, pointsOf [⟨"text", "src.md", []⟩]) ∧
      (storeInQdrant (α := Unit) true none [⟨"text", "src.md", []⟩]).2.2 =
        QOp.deleteCollection :: QOp.createCollection ⟨3072, Dist.cosine⟩ ::
        QOp.createPayloadIndex ::
        (batches100 (pointsOf [⟨"text", "src.md", []⟩])).map QOp.upsert) ∧
    (∀ op ∈ (storeInQdrant (α := Unit) true none [⟨"text", "src.md", []⟩]).2.2,
      ∀ batch, op = QOp.upsert batch →
      ∀ p ∈ batch, p.payload.map Prod.fst = ["text", "source"]) :=
  C10_store_invariant true none [⟨"text", "src.md", []⟩] rfl

/-! ## Chart formatting (`chart_formatting.format_celestial_objects`) -/

/-- A Python value as the chart-formatting code manipulates it. Floats are
carried by their printed representation and never computed with. -/
inductive PyVal where
  | str (s : String)
  | int (n : Int)
  | flo (r : String)
  | boolean (b : Bool)
  | null
  | dict (entries : List (String × PyVal))
  | list (xs : List PyVal)

/-- The Python builtins the formatting code relies on, abstracted: `str()`
as used by f-string interpolation, the `:.4f` format specifier, and the
truthiness of a float (given its carried representation). -/
structure PyBuiltins where
  str : PyVal → String
  fmt4 : PyVal → String
  floTruthy : String → Bool

/-- `d.get(k, default)`. -/
def pyGet (entries : List (String × PyVal)) (k : String) (d : PyVal) : PyVal :=
  match entries.lookup k with
  | some v => v
  | none => d

/-- `k in d`. -/
def pyHas (entries : List (String × PyVal)) (k : String) : Bool :=
  (entries.map Prod.fst).contains k

/-- `d[k]`, raising `KeyError` when absent. -/
def pySubscript (entries : List (String × PyVal)) (k : String) :
    Except String PyVal :=
  match entries.lookup k with
  | some v => Except.ok v
  | none => Except.error ("KeyError: " ++ k)

/-- Calling a dict method (`.get`, `.items`) on a non-dict value raises. -/
def asDict : PyVal → Except String (List (String × PyVal))
  | PyVal.dict entries => Except.ok entries
  | _ => Except.error "TypeError: expected a dict"

/-- A value required to be a string (object names produced by the chart
library are strings; a non-string name would also break Python's
`sorted(..., key=...)` on mixed keys). -/
def asStr : PyVal → Except String String
  | PyVal.str s => Except.ok s
  | _ => Except.error "TypeError: expected a str"

/-- The elements joined by `", ".join(...)`: a list of strings. -/
def asStrList : PyVal → Except String (List String)
  | PyVal.list xs => xs.mapM asStr
  | _ => Except.error "TypeError: expected a list of str"

/-- Python truthiness (`bool(v)`). -/
def pyTruthy (floTruthy : String → Bool) : PyVal → Bool
  | PyVal.str s => !(s == "")
  | PyVal.int n => decide (n ≠ 0)
  | PyVal.flo r => floTruthy r
  | PyVal.boolean b => b
  | PyVal.null => false
  | PyVal.dict entries => !entries.isEmpty
  | PyVal.list xs => !xs.isEmpty

/-- Python dict insertion: an existing key keeps its position and gets the
new value, a new key is appended. -/
def pyDictInsert (d : List (String × PyVal)) (k : String) (v : PyVal) :
    List (String × PyVal) :=
  if (d.map Prod.fst).contains k then
    d.map (fun kv => if kv.1 == k then (k, v) else kv)
  else d ++ [(k, v)]

/-- `obj_by_name = {v['name']: v for v in objects.values()}`. -/
def buildObjByName (objects : List PyVal) :
    Except String (List (String × PyVal)) :=
  objects.foldlM (fun acc v => do
    let entries ← asDict v
    let nameVal ← pySubscript entries "name"
    let nm ← asStr nameVal
    pure (pyDictInsert acc nm v)) []

/-- `object_map = {str(obj['index']): obj for obj in objects.values()}`. -/
def buildObjectMap (B : PyBuiltins) (objects : List PyVal) :
    Except String (List (String × PyVal)) :=
  objects.foldlM (fun acc v => do
    let entries ← asDict v
    let idx ← pySubscript entries "index"
    pure (pyDictInsert acc (B.str idx) v)) []

/-- The body of the display loop for one celestial object: the lines
appended to `output_lines` for `obj`. -/
def perObjLines (B : PyBuiltins) (obj : PyVal) :
    Except String (List String) := do
  let entries ← asDict obj
  let obj_name := pyGet entries "name" (PyVal.str "Unknown Object")
  let tEntries ← asDict (pyGet entries "type" (PyVal.dict []))
  let obj_type := pyGet tEntries "name" (PyVal.str "N/A")
  let headLine := "\n* " ++ B.str obj_name ++ " (" ++ B.str obj_type ++ ")"
  let signInfo ← asDict (pyGet entries "sign" (PyVal.dict []))
  let sign_name := pyGet signInfo "name" (PyVal.str "N/A")
  let sign_element := pyGet signInfo "element" (PyVal.str "N/A")
  let sign_modality := pyGet signInfo "modality" (PyVal.str "N/A")
  let longInfo ← asDict (pyGet entries "longitude" (PyVal.dict []))
  let long_fmt := pyGet longInfo "formatted" (PyVal.str "N/A")
  let slongInfo ← asDict (pyGet entries "sign_longitude" (PyVal.dict []))
  let sign_long_fmt := pyGet slongInfo "formatted" (PyVal.str "N/A")
  let posLine := "  Position: " ++ B.str sign_long_fmt ++ " " ++
    B.str sign_name ++ " (" ++ B.str sign_element ++ ", " ++
    B.str sign_modality ++ ")"
  let longLine := "  Zodiac Longitude: " ++ B.str long_fmt
  let houseInfo ← asDict (pyGet entries "house" (PyVal.dict []))
  let houseLine := "  House: " ++ B.str (pyGet houseInfo "name" (PyVal.str "N/A"))
  let decanInfo ← asDict (pyGet entries "decan" (PyVal.dict []))
  let decanLine := "  Decan: " ++ B.str (pyGet decanInfo "name" (PyVal.str "N/A"))
  let latLines ← if pyHas entries "latitude" then do
      let latVal ← pySubscript entries "latitude"
      let latInfo ← asDict latVal
      pure ["  Latitude: " ++ B.str (pyGet latInfo "formatted" (PyVal.str "N/A"))]
    else pure []
  let declInfo ← asDict (pyGet entries "declination" (PyVal.dict []))
  let decl_fmt := pyGet declInfo "formatted" (PyVal.str "N/A")
  let declLine := "  Declination: " ++ B.str decl_fmt ++
    (if pyTruthy B.floTruthy (pyGet entries "out_of_bounds" PyVal.null) then
      " (Out of Bounds)" else "")
  let moveLines ← if pyHas entries "speed" && pyHas entries "movement" then do
      let speed := pyGet entries "speed" (PyVal.flo "0.0")
      let moveInfo ← asDict (pyGet entries "movement" (PyVal.dict []))
      let move_fmt := pyGet moveInfo "formatted" (PyVal.str "N/A")
      pure ["  Movement: " ++ B.str move_fmt ++ " (Speed: " ++
        B.fmt4 speed ++ "°/day)"]
    else pure []
  let distLines : List String :=
    if pyHas entries "distance" then
      ["  Distance: " ++ B.fmt4 (pyGet entries "distance" (PyVal.flo "0.0")) ++ " AU"]
    else []
  let sectLines ← if pyHas entries "in_sect" then do
      let v ← pySubscript entries "in_sect"
      pure ["  In Sect: " ++ (if pyTruthy B.floTruthy v then "Yes" else "No")]
    else pure []
  let digLines ← if pyHas entries "dignities" then do
      let dv ← pySubscript entries "dignities"
      if pyTruthy B.floTruthy dv then do
        let dE ← asDict dv
        let fm := pyGet dE "formatted" PyVal.null
        if pyTruthy B.floTruthy fm then do
          let strs ← asStrList fm
          pure ["  Dignities/Debilities: " ++ String.intercalate ", " strs]
        else pure []
      else pure []
    else pure []
  let isEclipse : Bool :=
    match obj_type with
    | PyVal.str s => s == "Eclipse"
    | _ => false
  let eclipseLines ← if isEclipse then do
      let et ← asDict (pyGet entries "eclipse_type" (PyVal.dict []))
      let e_fmt := pyGet et "formatted" (PyVal.str "N/A")
      let dt ← asDict (pyGet entries "date_time" (PyVal.dict []))
      let e_date := pyGet dt "datetime" (PyVal.str "N/A")
      pure ["  Eclipse Type: " ++ B.str e_fmt, "  Eclipse Date: " ++ B.str e_date]
    else pure []
  pure ([headLine, posLine, longLine, houseLine, decanLine] ++ latLines ++
    [declLine] ++ moveLines ++ distLines ++ sectLines ++ digLines ++
    eclipseLines)

/-- The lines of the whole display loop. -/
def formatObjLines (B : PyBuiltins) : List PyVal → Except String (List String)
  | [] => Except.ok []
  | obj :: rest => do
    let first ← perObjLines B obj
    let more ← formatObjLines B rest
    pure (first ++ more)

/-- The objects picked from `obj_by_name` in `display_order`
(`sorted_objects.append(obj_by_name[name])` for each found name), kept
with their map key. -/
def pickedOf (M : List (String × PyVal)) (display_order : List String) :
    List (String × PyVal) :=
  display_order.foldl (fun acc name =>
    match M.lookup name with
    | some v => acc ++ [(name, v)]
    | none => acc) []

/-- `processed_names`: the display-order names found in `obj_by_name`. -/
def processedNamesOf (M : List (String × PyVal))
    (display_order : List String) : List String :=
  display_order.filter (fun n => (M.map Prod.fst).contains n)

/-- The remaining objects sorted by name (the sort key `x['name']`
coincides with the `obj_by_name` key), kept with their map key. -/
def remainingSortedOf (M : List (String × PyVal))
    (display_order : List String) : List (String × PyVal) :=
  (M.filter (fun kv => !(processedNamesOf M display_order).contains kv.1)).mergeSort
    (fun a b => a.1 ≤ b.1)

/-- `sorted_objects`: display-order objects first, then the rest sorted
by name. -/
def sortedObjectsOf (M : List (String × PyVal))
    (display_order : List String) : List PyVal :=
  (pickedOf M display_order ++ remainingSortedOf M display_order).map Prod.snd

/-- `format_celestial_objects` (`utils/chart_formatting.py`): build the
name-keyed map, order the objects by `display_order` then the rest sorted
by name, build the index-keyed `object_map`, and render the display lines
for each object in order. -/
def format_celestial_objects (B : PyBuiltins) (objects : List PyVal)
    (display_order : List String) :
    Except String (List String × List (String × PyVal)) := do
  let obj_by_name ← buildObjByName objects
  let sorted_objects := sortedObjectsOf obj_by_name display_order
  let object_map ← buildObjectMap B objects
  let lines ← formatObjLines B sorted_objects
  pure (lines, object_map)

/-- A celestial object carrying only its (string) name and its index —
all of `type`, `sign`, `longitude`, `sign_longitude`, `house`, `decan`,
`declination` (and every other optional field) absent. -/
def minObj (nm : String) (idx : PyVal) : PyVal :=
  PyVal.dict [("name", PyVal.str nm), ("index", idx)]

lemma perObjLines_minObj (B : PyBuiltins)
    (hstr : ∀ s, B.str (PyVal.str s) = s) (nm : String) (idx : PyVal) :
    perObjLines B (minObj nm idx) =
      Except.ok ["\n* " ++ nm ++ " (N/A)",
        "  Position: N/A N/A (N/A, N/A)",
        "  Zodiac Longitude: N/A",
        "  House: N/A",
        "  Decan: N/A",
        "  Declination: N/A"] := by
  simp [perObjLines, minObj, asDict, pySubscript, pyGet, pyHas, pyTruthy,
    Bind.bind, Except.bind, Pure.pure, Except.pure, List.lookup, hstr,
    String.append_assoc]

lemma mem_of_lookup_eq_some :
    ∀ {l : List (String × PyVal)} {k : String} {v : PyVal},
      l.lookup k = some v → (k, v) ∈ l := by
  intro l
  induction l with
  | nil => intro k v h; simp [List.lookup] at h
  | cons a rest ih =>
    intro k v h
    rw [List.lookup] at h
    cases hk : k == a.1 with
    | false =>
      rw [hk] at h
      simp only [] at h
      exact List.mem_cons_of_mem a (ih h)
    | true =>
      rw [hk] at h
      simp only [Option.some.injEq] at h
      have hk2 : k = a.1 := by simpa using hk
      have : (k, v) = a := by rw [hk2, ← h]
      rw [this]
      exact List.mem_cons_self _ _

lemma lookup_of_mem_nodup :
    ∀ {l : List (String × PyVal)} {k : String} {v : PyVal},
      (l.map Prod.fst).Nodup → (k, v) ∈ l → l.lookup k = some v := by
  intro l
  induction l with
  | nil => intro k v _ h; simp at h
  | cons a rest ih =>
    intro k v hnodup hmem
    rw [List.map_cons, List.nodup_cons] at hnodup
    rcases List.mem_cons.mp hmem with h | h
    · obtain ⟨a1, a2⟩ := a
      injection h with hk hv
      subst hk
      subst hv
      simp [List.lookup]
    · rw [List.lookup]
      have hk : ¬ k = a.1 := by
        intro hEq
        exact hnodup.1 (hEq ▸ List.mem_map_of_mem Prod.fst h)
      have hk2 : (k == a.1) = false := by simpa using hk
      rw [hk2]
      simp only []
      exact ih hnodup.2 h

/-- The minimal-object name-keyed map. -/
def minMap (specs : List (String × PyVal)) : List (String × PyVal) :=
  specs.map (fun s => (s.1, minObj s.1 s.2))

lemma buildObjByName_min_aux :
    ∀ (specs : List (String × PyVal)) (acc : List (String × PyVal)),
      (specs.map Prod.fst).Nodup →
      (∀ s ∈ specs, s.1 ∉ acc.map Prod.fst) →
      (specs.map (fun s => minObj s.1 s.2)).foldlM (fun acc v => do
        let entries ← asDict v
        let nameVal ← pySubscript entries "name"
        let nm ← asStr nameVal
        pure (pyDictInsert acc nm v)) acc =
      Except.ok (acc ++ minMap specs) := by
  intro specs
  induction specs with
  | nil =>
    intro acc _ _
    simp only [List.map_nil, List.foldlM_nil, minMap, List.append_nil]
    rfl
  | cons s rest ih =>
    intro acc hnodup hfresh
    rw [List.map_cons, List.nodup_cons] at hnodup
    rw [List.map_cons, List.foldlM_cons]
    have hni : s.1 ∉ acc.map Prod.fst := hfresh s (List.mem_cons_self _ _)
    have hcont : (acc.map Prod.fst).contains s.1 = false := by
      simpa using hni
    have hins : pyDictInsert acc s.1 (PyVal.dict [("name", PyVal.str s.1), ("index", s.2)]) =
        acc ++ [(s.1, PyVal.dict [("name", PyVal.str s.1), ("index", s.2)])] := by
      unfold pyDictInsert
      rw [hcont]
      simp
    have hstep : (do
        let entries ← asDict (minObj s.1 s.2)
        let nameVal ← pySubscript entries "name"
        let nm ← asStr nameVal
        pure (pyDictInsert acc nm (minObj s.1 s.2))) =
        Except.ok (acc ++ [(s.1, minObj s.1 s.2)]) := by
      simp [minObj, asDict, pySubscript, asStr, hins,
        Bind.bind, Except.bind, Pure.pure, Except.pure, List.lookup]
    rw [hstep]
    show (List.map (fun s => minObj s.1 s.2) rest).foldlM _
        (acc ++ [(s.1, minObj s.1 s.2)]) = _
    have hfresh2 : ∀ t ∈ rest, t.1 ∉ (acc ++ [(s.1, minObj s.1 s.2)]).map Prod.fst := by
      intro t ht
      rw [List.map_append, List.mem_append]
      rintro (h | h)
      · exact hfresh t (List.mem_cons_of_mem s ht) h
      · have hts : t.1 = s.1 := by simpa using h
        exact hnodup.1 (hts ▸ List.mem_map_of_mem Prod.fst ht)
    rw [ih (acc ++ [(s.1, minObj s.1 s.2)]) hnodup.2 hfresh2]
    simp [minMap]

lemma buildObjByName_min (specs : List (String × PyVal))
    (hnodup : (specs.map Prod.fst).Nodup) :
    buildObjByName (specs.map (fun s => minObj s.1 s.2)) =
      Except.ok (minMap specs) := by
  have h := buildObjByName_min_aux specs [] hnodup (by simp)
  simpa [buildObjByName] using h

lemma buildObjectMap_min (B : PyBuiltins) :
    ∀ (specs : List (String × PyVal)) (acc : List (String × PyVal)),
      ∃ m, (specs.map (fun s => minObj s.1 s.2)).foldlM (fun acc v => do
        let entries ← asDict v
        let idx ← pySubscript entries "index"
        pure (pyDictInsert acc (B.str idx) v)) acc = Except.ok m := by
  intro specs
  induction specs with
  | nil => intro acc; exact ⟨acc, rfl⟩
  | cons s rest ih =>
    intro acc
    rw [List.map_cons, List.foldlM_cons]
    have hstep : (do
        let entries ← asDict (minObj s.1 s.2)
        let idx ← pySubscript entries "index"
        pure (pyDictInsert acc (B.str idx) (minObj s.1 s.2))) =
        Except.ok (pyDictInsert acc (B.str s.2) (minObj s.1 s.2)) := by
      simp [minObj, asDict, pySubscript, Bind.bind, Except.bind,
        Pure.pure, Except.pure, List.lookup]
    rw [hstep]
    exact ih (pyDictInsert acc (B.str s.2) (minObj s.1 s.2))

lemma mem_pickedOf_of_mem (M : List (String × PyVal)) {k : String} {v : PyVal}
    (hlook : M.lookup k = some v) :
    ∀ (names : List String) (acc : List (String × PyVal)),
      ((k, v) ∈ acc ∨ k ∈ names) →
      (k, v) ∈ names.foldl (fun acc name =>
        match M.lookup name with
        | some v => acc ++ [(name, v)]
        | none => acc) acc := by
  intro names
  induction names with
  | nil =>
    intro acc h
    rcases h with h | h
    · exact h
    · simp at h
  | cons n rest ih =>
    intro acc h
    rw [List.foldl_cons]
    rcases h with h | h
    · apply ih
      left
      cases hl : M.lookup n with
      | some w => simp only [hl]; exact List.mem_append_left _ h
      | none => simpa [hl] using h
    · rcases List.mem_cons.mp h with h | h
      · subst h
        apply ih
        left
        rw [hlook]
        simp only []
        exact List.mem_append_right _ (List.mem_singleton.mpr rfl)
      · exact ih _ (Or.inr h)

lemma pickedOf_subset (M : List (String × PyVal)) (names : List String) :
    ∀ (acc : List (String × PyVal)),
      (∀ p ∈ acc, p ∈ M) →
      ∀ p ∈ names.foldl (fun acc name =>
        match M.lookup name with
        | some v => acc ++ [(name, v)]
        | none => acc) acc, p ∈ M := by
  induction names with
  | nil => intro acc hacc p hp; exact hacc p hp
  | cons n rest ih =>
    intro acc hacc p hp
    rw [List.foldl_cons] at hp
    cases hl : M.lookup n with
    | some w =>
      rw [hl] at hp
      refine ih (acc ++ [(n, w)]) ?_ p hp
      intro q hq
      rcases List.mem_append.mp hq with h | h
      · exact hacc q h
      · rw [List.mem_singleton.mp h]
        exact mem_of_lookup_eq_some hl
    | none =>
      rw [hl] at hp
      exact ih acc hacc p hp

lemma mem_sortedObjectsOf (M : List (String × PyVal))
    (display_order : List String)
    (hnodup : (M.map Prod.fst).Nodup) {p : String × PyVal} (hp : p ∈ M) :
    p.2 ∈ sortedObjectsOf M display_order := by
  unfold sortedObjectsOf
  by_cases hd : p.1 ∈ display_order
  · apply List.mem_map_of_mem Prod.snd
    apply List.mem_append_left
    unfold pickedOf
    have hlook : M.lookup p.1 = some p.2 := lookup_of_mem_nodup hnodup (by
      rcases p with ⟨k, v⟩; exact hp)
    have := mem_pickedOf_of_mem M hlook display_order [] (Or.inr hd)
    rcases p with ⟨k, v⟩
    exact this
  · apply List.mem_map_of_mem Prod.snd
    apply List.mem_append_right
    unfold remainingSortedOf
    rw [List.mem_mergeSort]
    rw [List.mem_filter]
    refine ⟨hp, ?_⟩
    have hnp : p.1 ∉ processedNamesOf M display_order := by
      intro hmem
      exact hd (List.mem_of_mem_filter hmem)
    simpa using hnp

lemma sortedObjectsOf_subset (M : List (String × PyVal))
    (display_order : List String) {o : PyVal}
    (ho : o ∈ sortedObjectsOf M display_order) :
    ∃ p ∈ M, o = p.2 := by
  unfold sortedObjectsOf at ho
  rw [List.mem_map] at ho
  obtain ⟨p, hp, hpo⟩ := ho
  rcases List.mem_append.mp hp with h | h
  · exact ⟨p, pickedOf_subset M display_order [] (by simp) p h, hpo.symm⟩
  · unfold remainingSortedOf at h
    rw [List.mem_mergeSort] at h
    exact ⟨p, (List.mem_filter.mp h).1, hpo.symm⟩

lemma formatObjLines_ok (B : PyBuiltins) :
    ∀ (objs : List PyVal),
      (∀ o ∈ objs, ∃ ls, perObjLines B o = Except.ok ls) →
      ∃ lines, formatObjLines B objs = Except.ok lines ∧
        ∀ o ∈ objs, ∀ ls, perObjLines B o = Except.ok ls →
          ∀ x ∈ ls, x ∈ lines := by
  intro objs
  induction objs with
  | nil => intro _; exact ⟨[], rfl, by simp⟩
  | cons o rest ih =>
    intro h
    obtain ⟨ls0, h0⟩ := h o (List.mem_cons_self _ _)
    obtain ⟨lines, hl, hmem⟩ := ih (fun o' ho' => h o' (List.mem_cons_of_mem o ho'))
    refine ⟨ls0 ++ lines, ?_, ?_⟩
    · unfold formatObjLines
      rw [h0, hl]
      rfl
    · intro o' ho' ls hls x hx
      rcases List.mem_cons.mp ho' with h' | h'
      · subst h'
        rw [h0] at hls
        injection hls with hls2
        rw [← hls2] at hx
        exact List.mem_append_left _ hx
      · exact List.mem_append_right _ (hmem o' h' ls hls x hx)

/-- C7: `format_celestial_objects` is total over incomplete chart data —
for every collection of celestial objects carrying only a (distinct)
string name and an index, with `type`, `sign`, `longitude`,
`sign_longitude`, `house`, `decan` and `declination` all absent, and for
every display order, it returns without error, rendering each missing
field as the literal string `N/A` in the corresponding output line of
each object. -/
theorem C7_na_fallbacks (B : PyBuiltins)
    (hstr : ∀ s, B.str (PyVal.str s) = s)
    (specs : List (String × PyVal)) (display_order : List String)
    (hnodup : (specs.map Prod.fst).Nodup) :
    ∃ lines omap,
      format_celestial_objects B (specs.map (fun s => minObj s.1 s.2))
        display_order = Except.ok (lines, omap) ∧
      ∀ s ∈ specs,
        ("\n* " ++ s.1 ++ " (N/A)") ∈ lines ∧
        "  Position: N/A N/A (N/A, N/A)" ∈ lines ∧
        "  Zodiac Longitude: N/A" ∈ lines ∧
        "  House: N/A" ∈ lines ∧
        "  Decan: N/A" ∈ lines ∧
        "  Declination: N/A" ∈ lines := by
  have hM := buildObjByName_min specs hnodup
  have hMkeys : ((minMap specs).map Prod.fst).Nodup := by
    have : (minMap specs).map Prod.fst = specs.map Prod.fst := by
      simp [minMap]
    rw [this]
    exact hnodup
  obtain ⟨omap, homap⟩ := buildObjectMap_min B specs []
  have hall : ∀ o ∈ sortedObjectsOf (minMap specs) display_order,
      ∃ ls, perObjLines B o = Except.ok ls := by
    intro o ho
    obtain ⟨p, hpM, hpo⟩ := sortedObjectsOf_subset _ _ ho
    unfold minMap at hpM
    rw [List.mem_map] at hpM
    obtain ⟨s, _, hs⟩ := hpM
    rw [hpo, ← hs]
    exact ⟨_, perObjLines_minObj B hstr s.1 s.2⟩
  obtain ⟨lines, hlines, hlmem⟩ :=
    formatObjLines_ok B (sortedObjectsOf (minMap specs) display_order) hall
  refine ⟨lines, omap, ?_, ?_⟩
  · unfold format_celestial_objects
    rw [hM]
    show (do
      let object_map ← buildObjectMap B (specs.map (fun s => minObj s.1 s.2))
      let ls ← formatObjLines B (sortedObjectsOf (minMap specs) display_order)
      pure (ls, object_map)) = Except.ok (lines, omap)
    rw [show buildObjectMap B (specs.map (fun s => minObj s.1 s.2)) =
      Except.ok omap from homap]
    rw [hlines]
    rfl
  · intro s hs
    have hpM : (s.1, minObj s.1 s.2) ∈ minMap specs := by
      unfold minMap
      exact List.mem_map_of_mem _ hs
    have hobj : minObj s.1 s.2 ∈ sortedObjectsOf (minMap specs) display_order :=
      mem_sortedObjectsOf (minMap specs) display_order hMkeys hpM
    have hper := perObjLines_minObj B hstr s.1 s.2
    have hx := hlmem (minObj s.1 s.2) hobj _ hper
    refine ⟨hx _ ?_, hx _ ?_, hx _ ?_, hx _ ?_, hx _ ?_, hx _ ?_⟩ <;> simp

/-- Witness for `C7_na_fallbacks`: two minimal objects, one in the
display order and one not. -/
theorem C7_na_fallbacks_witness :
    ∃ lines omap,
      format_celestial_objects
        ⟨fun v => match v with | PyVal.str s => s | _ => "", fun _ => "", fun _ => false⟩
        ([("Sun", PyVal.int 1), ("Zed", PyVal.int 2)].map (fun s => minObj s.1 s.2))
        ["Sun", "Moon"] = Except.ok (lines, omap) ∧
      ∀ s ∈ [("Sun", PyVal.int 1), ("Zed", PyVal.int 2)],
        ("\n* " ++ s.1 ++ " (N/A)") ∈ lines ∧
        "  Position: N/A N/A (N/A, N/A)" ∈ lines ∧
        "  Zodiac Longitude: N/A" ∈ lines ∧
        "  House: N/A" ∈ lines ∧
        "  Decan: N/A" ∈ lines ∧
        "  Declination: N/A" ∈ lines :=
  C7_na_fallbacks
    ⟨fun v => match v with | PyVal.str s => s | _ => "", fun _ => "", fun _ => false⟩
    (fun _ => rfl) [("Sun", PyVal.int 1), ("Zed", PyVal.int 2)] ["Sun", "Moon"]
    (by simp)

/-! ## Subject profile file (`subject_selection.create_subject_data`) -/

/-- A JSON value as written to the subject file; `α` is the coordinate
type returned by the geocoder (floats, never computed with here). -/
inductive JVal (α : Type) where
  | str (s : String)
  | coord (x : α)
  | null
  | obj (fields : List (String × JVal α))

/-- Python's `str.strip()` on a `String`. -/
def pyStripStr (s : String) : String := String.mk (pyStrip s.toList)

/-- Zero-pad to two digits (`%m`, `%d`, `%H`, `%M`, `%S`). -/
def pad2 (n : Nat) : String :=
  if n < 10 then "0" ++ toString n else toString n

/-- Zero-pad to four digits (`%Y`, as CPython renders it). -/
def pad4 (n : Nat) : String :=
  if n < 10 then "000" ++ toString n
  else if n < 100 then "00" ++ toString n
  else if n < 1000 then "0" ++ toString n
  else toString n

/-- `datetime(year, month, day, hour, minute).strftime("%Y-%m-%d %H:%M:%S")`
(the seconds are always zero). -/
def formatDOB (year month day hour minute : Nat) : String :=
  pad4 year ++ "-" ++ pad2 month ++ "-" ++ pad2 day ++ " " ++
  pad2 hour ++ ":" ++ pad2 minute ++ ":" ++ pad2 0

/-- `create_subject_data` (`utils/subject_selection.py`), reduced to the
JSON object it serializes: the validated birth date/time, the geocoded
city/country/coordinates, the (possibly failed) timezone lookup, and the
stripped optional email answer. The `email` key is appended only when the
stripped input is non-empty (`if email:`). -/
def create_subject_data {α : Type} (original_name : String)
    (year month day hour minute : Nat) (city country : String)
    (lat lon : α) (timezone : Option String) (emailInput : String) :
    List (String × JVal α) :=
  let email := pyStripStr emailInput
  let base : List (String × JVal α) :=
    [("name", JVal.str original_name),
     ("date_of_birth", JVal.str (formatDOB year month day hour minute)),
     ("birthplace", JVal.obj
       [("longitude", JVal.coord lon),
        ("latitude", JVal.coord lat),
        ("place", JVal.str city),
        ("country", JVal.str country),
        ("timezone", match timezone with
          | some t => JVal.str t
          | none => JVal.null)])]
  if email ≠ "" then base ++ [("email", JVal.str email)] else base

/-- C8: the subject profile object contains exactly the subject's name, a
`date_of_birth` string in `%Y-%m-%d %H:%M:%S` format, and a `birthplace`
object with exactly the `longitude`, `latitude`, `place`, `country` and
`timezone` keys (`timezone` is JSON `null` exactly when the lookup
failed); the `email` key is present if and only if the stripped email
answer is non-empty. -/
theorem C8_subject_profile {α : Type} (original_name : String)
    (year month day hour minute : Nat) (city country : String)
    (lat lon : α) (timezone : Option String) (emailInput : String) :
    ((create_subject_data original_name year month day hour minute city
        country lat lon timezone emailInput).map Prod.fst =
      ["name", "date_of_birth", "birthplace"] ++
        (if pyStripStr emailInput ≠ "" then ["email"] else [])) ∧
    ((create_subject_data original_name year month day hour minute city
        country lat lon timezone emailInput).lookup "name" =
      some (JVal.str original_name)) ∧
    ((create_subject_data original_name year month day hour minute city
        country lat lon timezone emailInput).lookup "date_of_birth" =
      some (JVal.str (formatDOB year month day hour minute))) ∧
    (∃ bp,
      (create_subject_data original_name year month day hour minute city
        country lat lon timezone emailInput).lookup "birthplace" =
        some (JVal.obj bp) ∧
      bp.map Prod.fst =
        ["longitude", "latitude", "place", "country", "timezone"] ∧
      (bp.lookup "timezone" = some JVal.null ↔ timezone = none)) ∧
    ("email" ∈ (create_subject_data original_name year month day hour minute
        city country lat lon timezone emailInput).map Prod.fst ↔
      pyStripStr emailInput ≠ "") := by
  cases timezone with
  | none =>
    refine ⟨?_, ?_, ?_,
      ⟨[("longitude", JVal.coord lon), ("latitude", JVal.coord lat),
        ("place", JVal.str city), ("country", JVal.str country),
        ("timezone", JVal.null)], ?_, ?_, ?_⟩, ?_⟩ <;>
      by_cases he : pyStripStr emailInput = "" <;>
      simp [create_subject_data, he, List.lookup]
  | some t =>
    refine ⟨?_, ?_, ?_,
      ⟨[("longitude", JVal.coord lon), ("latitude", JVal.coord lat),
        ("place", JVal.str city), ("country", JVal.str country),
        ("timezone", JVal.str t)], ?_, ?_, ?_⟩, ?_⟩ <;>
      by_cases he : pyStripStr emailInput = "" <;>
      simp [create_subject_data, he, List.lookup]

end TransitReader
